import Mathlib

/-!
Verification of the denshobato Raycast extension: a shallow embedding of
`src/denshobato.tsx` (checkPermissions, sendToFocusedApp, handleSubmit),
`src/utils/applescript.ts` (execAppleScript) and the history store
(saveToHistory, clearHistory), with theorems settling the spec claims.
-/

namespace Denshobato

/-- The single-quote character, written by code point to keep sources clean. -/
def squote : Char := Char.ofNat 39

/-- The double-quote character. -/
def dquote : Char := Char.ofNat 34

/-- The replacement written in `applescript.ts` line 8 for each single quote:
the five characters quote, double-quote, quote, double-quote, quote. -/
def escSeq : String := String.mk [squote, dquote, squote, dquote, squote]

/-- Embeds `script.replace(/'/g, "'...'")` from `applescript.ts` line 8:
a global single-character regex replace, i.e. each single-quote character of
the script is replaced by `escSeq` and every other character kept. -/
def escapeScript (s : String) : String :=
  String.mk (s.data.foldr (fun c acc => if c = squote then escSeq.data ++ acc else c :: acc) [])

/-- The shell command built on `applescript.ts` line 8:
`osascript -e '<escaped script>'`. -/
def osaCommand (script : String) : String :=
  "osascript -e " ++ String.mk [squote] ++ escapeScript script ++ String.mk [squote]

/-- JavaScript `String.prototype.trim`: strip leading and trailing whitespace,
modelled at the character-list level (used by `handleSubmit` line 65 and
`execAppleScript` line 14). -/
def jsTrim (s : String) : String :=
  String.mk (((s.data.dropWhile Char.isWhitespace).reverse.dropWhile Char.isWhitespace).reverse)

/-- JavaScript `String.prototype.includes`: `jsIncludes s pat` is true when
`pat` occurs as a contiguous substring of `s` (used by the error-message
classification in `handleSubmit` lines 101-103). -/
def jsIncludes (s pat : String) : Bool :=
  (List.range (s.data.length + 1)).any (fun i => List.isPrefixOf pat.data (s.data.drop i))

/-- A thrown JavaScript value: either an `Error` instance carrying a message,
or some non-`Error` value (the `instanceof Error` test in `handleSubmit`
line 98 distinguishes the two). -/
inductive JsError where
  | err (msg : String)
  | nonError
deriving Repr, DecidableEq

/-- The outcome of the spawned `osascript` process, as observed by
`execAsync`: either the promise rejects (spawn failure / non-zero exit,
carrying the stringified rejection), or the process completes with captured
standard output and standard error. -/
inductive ExecOutcome where
  | spawnError (e : String)
  | completed (stdout stderr : String)
deriving Repr, DecidableEq

/-- `execAppleScript` from `src/utils/applescript.ts` lines 6-19, as a
function of the process outcome: a non-empty stderr raises
`AppleScript error: <stderr>`, which the surrounding catch re-wraps (string
interpolation of an `Error` prints `Error: <message>`); a rejected exec
promise is re-wrapped the same way; otherwise the trimmed stdout is
returned. -/
def execAppleScript (script : String) (outcome : ExecOutcome) : Except JsError String :=
  match outcome with
  | .spawnError e => .error (.err ("Failed to execute AppleScript: " ++ e))
  | .completed stdout stderr =>
    if stderr ≠ "" then
      .error (.err ("Failed to execute AppleScript: Error: AppleScript error: " ++ stderr))
    else
      .ok (jsTrim stdout)

/-- `execPasses script o` is true when `execAppleScript` returns normally. -/
def execPasses (script : String) (o : ExecOutcome) : Bool :=
  match execAppleScript script o with
  | .ok _ => true
  | .error _ => false

/-- The result of `Clipboard.read()` (Raycast API): optional text content and
optional file reference.  JS truthiness of the `text` field (used at
`denshobato.tsx` lines 48 and 56) means `some` of a non-empty string. -/
structure ReadContent where
  text : Option String
  file : Option String
deriving Repr, DecidableEq

/-- JS truthiness of the snapshot's `text` field: `some s` iff the field is a
non-empty string. -/
def truthyText (c : ReadContent) : Option String :=
  match c.text with
  | some s => if s = "" then none else some s
  | none => none

/-- Observable effects of one submission, in order of occurrence:
clipboard reads, clipboard copy attempts, direct-paste attempts, AppleScript
executions (identified by their script), the settle delay, and HUD notices. -/
inductive Event where
  | read (c : ReadContent)
  | copy (s : String)
  | paste (s : String)
  | exec (script : String)
  | delay (ms : Nat)
  | hud (msg : String)
deriving Repr, DecidableEq

/-- System state threaded through a submission: the clipboard content and the
trace of effects so far. -/
structure Sys where
  clip : ReadContent
  trace : List Event
deriving Repr, DecidableEq

/-- Append one event to the trace. -/
def logE (e : Event) (st : Sys) : Sys :=
  { st with trace := st.trace ++ [e] }

/-- Failure-injection environment for one submission: for each fallible call
site of `denshobato.tsx`, whether it succeeds and, if not, what it throws.
`probeOutcome` and `keystrokeOutcome` are the process outcomes of the two
`execAppleScript` calls; the `...Err` fields inject failures of
`Clipboard.paste` (line 25), the fallback `Clipboard.copy(text)` (line 33),
the restore copies (lines 49/57, same underlying call), and the
`handleSubmit`-level copies (lines 77/86, which are on disjoint paths). -/
structure Env where
  probeOutcome : ExecOutcome
  pasteErr : Option JsError
  fallbackCopyErr : Option JsError
  keystrokeOutcome : ExecOutcome
  restoreCopyErr : Option JsError
  submitCopyErr : Option JsError
deriving Repr, DecidableEq

/-- `Clipboard.copy(s)`: the attempt is always traced; on success the
clipboard becomes text-only content `s`, on injected failure the clipboard is
unchanged and the error is thrown. -/
def doCopy (errInj : Option JsError) (s : String) (st : Sys) : Sys × Except JsError Unit :=
  let st' := logE (.copy s) st
  match errInj with
  | some e => (st', .error e)
  | none => ({ st' with clip := { text := some s, file := none } }, .ok ())

/-- The permission-probe script of `checkPermissions` (`denshobato.tsx`
line 12). -/
def probeScript : String :=
  "tell application \"System Events\" to get name of current application"

/-- The keystroke-injection script of `sendToFocusedApp` (`denshobato.tsx`
lines 37-41), including the template literal's whitespace. -/
def keystrokeScript : String :=
  "\n          tell application \"System Events\"\n            keystroke \"v\" using command down\n          end tell\n        "

/-- `checkPermissions` (`denshobato.tsx` lines 9-18): run the probe script,
return true on success and false on any failure (the failure is only
logged). -/
def checkPermissions (env : Env) (st : Sys) : Sys × Bool :=
  (logE (.exec probeScript) st, execPasses probeScript env.probeOutcome)

/-- The catch block of `sendToFocusedApp` (`denshobato.tsx` lines 54-60):
if the snapshot's text is truthy, attempt to restore it; a throw from the
restore copy replaces the fallback error, otherwise the fallback error is
re-raised. -/
def fallbackCatch (env : Env) (orig : ReadContent) (e : JsError) (st : Sys) :
    Sys × Except JsError Unit :=
  match truthyText orig with
  | some s =>
    match doCopy env.restoreCopyErr s st with
    | (st', .error e2) => (st', .error e2)
    | (st', .ok ()) => (st', .error e)
  | none => (st, .error e)

/-- `sendToFocusedApp` (`denshobato.tsx` lines 20-62).  Method 1 is
`Clipboard.paste(text)`; per the Raycast API it pastes into the frontmost
application and does not alter the clipboard (a failed paste certainly does
not).  On paste failure, Method 2 snapshots the clipboard, copies the text,
runs the keystroke script, waits 300 ms, and restores a truthy text
snapshot; any error in that sequence goes through `fallbackCatch`. -/
def sendToFocusedApp (env : Env) (text : String) (st : Sys) : Sys × Except JsError Unit :=
  let st := logE (.paste text) st
  match env.pasteErr with
  | none => (st, .ok ())
  | some _ =>
    let originalClipboard := st.clip
    let st := logE (.read originalClipboard) st
    match doCopy env.fallbackCopyErr text st with
    | (st', .error e) => fallbackCatch env originalClipboard e st'
    | (st', .ok ()) =>
      let st' := logE (.exec keystrokeScript) st'
      match execAppleScript keystrokeScript env.keystrokeOutcome with
      | .error e => fallbackCatch env originalClipboard e st'
      | .ok _ =>
        let st' := logE (.delay 300) st'
        match truthyText originalClipboard with
        | some orig =>
          match doCopy env.restoreCopyErr orig st' with
          | (st2, .error e) => fallbackCatch env originalClipboard e st2
          | (st2, .ok ()) => (st2, .ok ())
        | none => (st', .ok ())

/-- The error classification of `handleSubmit`'s catch block
(`denshobato.tsx` lines 94-111): which HUD message is shown for a given
thrown value. -/
def catchMsg : JsError → String
  | .err msg =>
    if jsIncludes msg "permission" || jsIncludes msg "access" then
      "Permission denied. Please check accessibility settings."
    else if jsIncludes msg "AppleScript" then
      "AppleScript failed. Message saved to clipboard instead."
    else
      "Failed: " ++ msg
  | .nonError => "Failed to send message..."

/-- The form values (`denshobato.tsx` lines 4-6). -/
structure Values where
  textarea : String
deriving Repr, DecidableEq

/-- `handleSubmit` (`denshobato.tsx` lines 64-112): validate the trimmed
text, probe permissions (clipboard-only fallback on failure; a throw from
that path's copy escapes the handler), otherwise send, back up the text to
the clipboard, read it back for verification, and show the success HUD;
any error from the try block is classified into a HUD notice. -/
def handleSubmit (env : Env) (values : Values) (st : Sys) : Sys × Except JsError Unit :=
  let text := jsTrim values.textarea
  if text = "" then
    (logE (.hud "Please enter message") st, .ok ())
  else
    match checkPermissions env st with
    | (st, hasPermissions) =>
      if hasPermissions = false then
        match doCopy env.submitCopyErr text st with
        | (st', .error e) => (st', .error e)
        | (st', .ok ()) =>
          (logE (.hud "Message copied to clipboard (AppleScript permissions required for auto-paste)") st', .ok ())
      else
        match sendToFocusedApp env text st with
        | (st', .error e) => (logE (.hud (catchMsg e)) st', .ok ())
        | (st', .ok ()) =>
          match doCopy env.submitCopyErr text st' with
          | (st2, .error e) => (logE (.hud (catchMsg e)) st2, .ok ())
          | (st2, .ok ()) =>
            let st2 := logE (.read st2.clip) st2
            (logE (.hud "Message sent successfully!") st2, .ok ())

/-- `MAX_HISTORY_ITEMS` from the history store. -/
def MAX_HISTORY_ITEMS : Nat := 10

/-- `saveToHistory` acting on the stored list: remove exact matches of
`text`, prepend `text`, keep the first `MAX_HISTORY_ITEMS` entries. -/
def saveToHistory (text : String) (currentHistory : List String) : List String :=
  (text :: currentHistory.filter (fun item => item ≠ text)).take MAX_HISTORY_ITEMS

/-- `clearHistory`: the stored list is removed, so a subsequent read yields
the empty list. -/
def clearHistory : List String := []

/-- A process outcome for a successful `osascript` run. -/
def okOutcome : ExecOutcome := ExecOutcome.completed "Zed" ""

/-- Environment for a run where the direct paste succeeds. -/
def envDirect : Env :=
  { probeOutcome := okOutcome, pasteErr := none, fallbackCopyErr := none,
    keystrokeOutcome := okOutcome, restoreCopyErr := none, submitCopyErr := none }

/-- Environment for a run where direct paste fails and the keystroke
fallback succeeds. -/
def envFallbackOk : Env :=
  { envDirect with pasteErr := some (JsError.err "paste unsupported") }

/-- Environment for a run where the permission probe fails. -/
def envProbeFail : Env :=
  { envDirect with probeOutcome := ExecOutcome.spawnError "osascript: not authorized" }

/-- Environment for a run where direct paste fails and the keystroke script
reports on stderr. -/
def envKsFail : Env :=
  { envFallbackOk with keystrokeOutcome := ExecOutcome.completed "" "not allowed to send keystrokes" }

/-- An initial state whose clipboard holds the text `"old"`. -/
def stOld : Sys := { clip := { text := some "old", file := none }, trace := [] }

end Denshobato

namespace Denshobato

/-- A trace discipline: every clipboard-copy event is preceded by a
clipboard-read event (the parameter records whether a read has been seen). -/
def copyAfterRead : List Event → Bool → Bool
  | [], _ => true
  | Event.copy _ :: rest, seen => seen && copyAfterRead rest seen
  | Event.read _ :: rest, _ => copyAfterRead rest true
  | _ :: rest, seen => copyAfterRead rest seen

/-- Whether a trace contains at least one user-visible HUD notice. -/
def hasHud (tr : List Event) : Bool :=
  tr.any (fun e => match e with | Event.hud _ => true | _ => false)

/-- An initial state whose clipboard already holds exactly the text that the
counterexample run submits. -/
def stSame : Sys := { clip := { text := some "hello", file := none }, trace := [] }

end Denshobato

namespace Denshobato

theorem string_data_append (s t : String) : (s ++ t).data = s.data ++ t.data := rfl

theorem string_ne_append_of_head_ne (a pre msg : String) (ca cp : Char) (ta tp : List Char)
    (ha : a.data = ca :: ta) (hp : pre.data = cp :: tp) (hne : ca ≠ cp) : a ≠ pre ++ msg := by
  intro h
  apply hne
  have hd : a.data = pre.data ++ msg.data := by rw [h, string_data_append]
  rw [ha, hp, List.cons_append] at hd
  exact (List.cons.injEq _ _ _ _ ▸ hd).1

theorem sent_ne_catchMsg (e : JsError) :
    ("Message sent successfully!" = catchMsg e) = False := by
  apply eq_false
  intro h
  cases e with
  | nonError => simp [catchMsg] at h
  | err msg =>
    rw [catchMsg] at h
    split at h
    · exact absurd h (by decide)
    · split at h
      · exact absurd h (by decide)
      · exact string_ne_append_of_head_ne _ "Failed: " msg 'M' 'F' _ _ rfl rfl (by decide) h

theorem clipNotice_ne_catchMsg (e : JsError) :
    ("Message copied to clipboard (AppleScript permissions required for auto-paste)" = catchMsg e)
      = False := by
  apply eq_false
  intro h
  cases e with
  | nonError => simp [catchMsg] at h
  | err msg =>
    rw [catchMsg] at h
    split at h
    · exact absurd h (by decide)
    · split at h
      · exact absurd h (by decide)
      · exact string_ne_append_of_head_ne _ "Failed: " msg 'M' 'F' _ _ rfl rfl (by decide) h

theorem copyAfterRead_true (tr : List Event) : copyAfterRead tr true = true := by
  induction tr with
  | nil => rfl
  | cons e rest ih => cases e <;> simp [copyAfterRead, ih]

theorem copyAfterRead_spec (tr : List Event) :
    ∀ (seen : Bool), copyAfterRead tr seen = true →
      ∀ (i : Nat) (s : String), tr[i]? = some (Event.copy s) →
        seen = true ∨ ∃ (j : Nat) (c : ReadContent), j < i ∧ tr[j]? = some (Event.read c) := by
  induction tr with
  | nil => intro seen _ i s hi; simp at hi
  | cons e rest ih =>
    intro seen hchk i s hi
    cases i with
    | zero =>
      simp at hi
      subst hi
      simp [copyAfterRead] at hchk
      exact Or.inl hchk.1
    | succ n =>
      simp at hi
      cases e with
      | read c =>
        right
        exact ⟨0, c, Nat.succ_pos n, by simp⟩
      | copy s2 =>
        simp [copyAfterRead] at hchk
        rcases ih seen hchk.2 n s hi with h | ⟨j, c, hj, hget⟩
        · exact Or.inl h
        · exact Or.inr ⟨j + 1, c, Nat.succ_lt_succ hj, by simpa using hget⟩
      | paste s2 =>
        rcases ih seen (by simpa [copyAfterRead] using hchk) n s hi with h | ⟨j, c, hj, hget⟩
        · exact Or.inl h
        · exact Or.inr ⟨j + 1, c, Nat.succ_lt_succ hj, by simpa using hget⟩
      | exec s2 =>
        rcases ih seen (by simpa [copyAfterRead] using hchk) n s hi with h | ⟨j, c, hj, hget⟩
        · exact Or.inl h
        · exact Or.inr ⟨j + 1, c, Nat.succ_lt_succ hj, by simpa using hget⟩
      | delay ms =>
        rcases ih seen (by simpa [copyAfterRead] using hchk) n s hi with h | ⟨j, c, hj, hget⟩
        · exact Or.inl h
        · exact Or.inr ⟨j + 1, c, Nat.succ_lt_succ hj, by simpa using hget⟩
      | hud m =>
        rcases ih seen (by simpa [copyAfterRead] using hchk) n s hi with h | ⟨j, c, hj, hget⟩
        · exact Or.inl h
        · exact Or.inr ⟨j + 1, c, Nat.succ_lt_succ hj, by simpa using hget⟩

theorem escape_foldr_acc (l acc : List Char) :
    l.foldr (fun c a => if c = squote then escSeq.data ++ a else c :: a) acc
      = l.foldr (fun c a => if c = squote then escSeq.data ++ a else c :: a) [] ++ acc := by
  induction l with
  | nil => simp
  | cons c l ih => by_cases hc : c = squote <;> simp [hc, ih]

theorem escape_no_squote (l : List Char) (h : ∀ c ∈ l, c ≠ squote) :
    l.foldr (fun c a => if c = squote then escSeq.data ++ a else c :: a) [] = l := by
  induction l with
  | nil => rfl
  | cons c l ih =>
    have hc : c ≠ squote := h c (List.mem_cons_self c l)
    simp only [List.foldr_cons, if_neg hc]
    rw [ih (fun c2 hc2 => h c2 (List.mem_cons_of_mem c hc2))]

/-- C7: `execAppleScript` builds its command by wrapping the script in single
quotes after replacing every embedded single quote by the
close-quote/literal-quote/reopen-quote sequence, and on success it returns
the trimmed standard output.  The replacement is characterised
compositionally: it distributes over concatenation, sends a single quote to
the escape sequence, and fixes every other character (hence any quote-free
script). -/
theorem applescript_quoting (s t script out : String) (c : Char) :
    escapeScript (s ++ t) = escapeScript s ++ escapeScript t
    ∧ escapeScript (String.mk [squote]) = escSeq
    ∧ (c ≠ squote → escapeScript (String.mk [c]) = String.mk [c])
    ∧ ((∀ c2 ∈ script.data, c2 ≠ squote) → escapeScript script = script)
    ∧ osaCommand script
        = "osascript -e " ++ String.mk [squote] ++ escapeScript script ++ String.mk [squote]
    ∧ execAppleScript script (ExecOutcome.completed out "") = Except.ok (jsTrim out) := by
  refine ⟨?_, by decide, ?_, ?_, rfl, by simp [execAppleScript]⟩
  · show String.mk _ = String.mk _ ++ String.mk _
    have : (String.mk ((s ++ t).data.foldr
        (fun c a => if c = squote then escSeq.data ++ a else c :: a) []))
        = String.mk (s.data.foldr (fun c a => if c = squote then escSeq.data ++ a else c :: a) []
            ++ t.data.foldr (fun c a => if c = squote then escSeq.data ++ a else c :: a) []) := by
      rw [string_data_append, List.foldr_append, escape_foldr_acc]
    exact this
  · intro hc
    simp [escapeScript, List.foldr, if_neg hc]
  · intro hfree
    show String.mk _ = script
    rw [escape_no_squote script.data hfree]

/-- Witness for `applescript_quoting` at concrete inputs, discharging the
conditional conjuncts. -/
theorem applescript_quoting_witness :
    ((Char.ofNat 120) ≠ squote)
    ∧ escapeScript (String.mk [Char.ofNat 120]) = String.mk [Char.ofNat 120]
    ∧ (∀ c2 ∈ "hello".data, c2 ≠ squote)
    ∧ escapeScript "hello" = "hello"
    ∧ escapeScript ("a" ++ "b") = escapeScript "a" ++ escapeScript "b" :=
  ⟨by decide,
   (applescript_quoting "a" "b" "hello" "o" (Char.ofNat 120)).2.2.1 (by decide),
   by decide,
   (applescript_quoting "a" "b" "hello" "o" (Char.ofNat 120)).2.2.2.1 (by decide),
   (applescript_quoting "a" "b" "hello" "o" (Char.ofNat 120)).1⟩

/-- Whether the spawned process outcome is a failing one: a rejected exec
promise, or a completed run that wrote to stderr. -/
def outcomeFails : ExecOutcome → Prop
  | .spawnError _ => True
  | .completed _ stderr => stderr ≠ ""

/-- C8: `execAppleScript` raises an error exactly when the process cannot be
executed or reports a non-empty error stream; with an empty error stream and
a running process it returns normally (with the trimmed stdout). -/
theorem applescript_error_iff (script : String) (o : ExecOutcome) :
    (execPasses script o = false ↔ outcomeFails o)
    ∧ (∀ out : String,
        execAppleScript script (ExecOutcome.completed out "") = Except.ok (jsTrim out)) := by
  constructor
  · cases o with
    | spawnError e => simp [execPasses, execAppleScript, outcomeFails]
    | completed out err =>
      by_cases he : err = "" <;> simp [execPasses, execAppleScript, outcomeFails, he]
  · intro out
    simp [execAppleScript]

/-- C6: an input whose trimmed text is empty produces only the validation
notice: no clipboard read or write, no automation call, unchanged clipboard,
and a normal return. -/
theorem blank_input_no_side_effects (env : Env) (v : Values) (c : ReadContent)
    (h : jsTrim v.textarea = "") :
    handleSubmit env v { clip := c, trace := [] }
      = ({ clip := c, trace := [Event.hud "Please enter message"] }, Except.ok ()) := by
  simp [handleSubmit, h, logE]

/-- Witness for `blank_input_no_side_effects` on the all-spaces input. -/
theorem blank_input_no_side_effects_witness :
    jsTrim "  " = ""
    ∧ handleSubmit envDirect { textarea := "  " }
        { clip := { text := some "old", file := none }, trace := [] }
      = ({ clip := { text := some "old", file := none },
           trace := [Event.hud "Please enter message"] }, Except.ok ()) :=
  ⟨by decide,
   blank_input_no_side_effects envDirect { textarea := "  " }
     { text := some "old", file := none } (by decide)⟩

/-- C9: the history store deduplicates (the added text ends up exactly once,
at the front), never exceeds `MAX_HISTORY_ITEMS` entries, drops the oldest
entry when a fresh add overflows a full store, and `clearHistory` empties
the list. -/
theorem history_dedup_bound_clear (t : String) (h : List String) :
    (saveToHistory t h).head? = some t
    ∧ (saveToHistory t h).count t = 1
    ∧ (saveToHistory t h).length ≤ MAX_HISTORY_ITEMS
    ∧ (t ∉ h → h.length = MAX_HISTORY_ITEMS → saveToHistory t h = t :: h.dropLast)
    ∧ clearHistory = ([] : List String) := by
  have hsave : saveToHistory t h = t :: (h.filter (fun item => item ≠ t)).take 9 := rfl
  refine ⟨by rw [hsave]; rfl, ?_, ?_, ?_, rfl⟩
  · have h0 : ((h.filter (fun item => item ≠ t)).take 9).count t = 0 := by
      rw [List.count_eq_zero]
      intro hmem
      have h1 := List.take_subset _ _ hmem
      have h2 := (List.mem_filter.mp h1).2
      simp at h2
    rw [hsave, List.count_cons_self, h0]
  · rw [hsave, MAX_HISTORY_ITEMS]
    simp only [List.length_cons]
    have := List.length_take_le 9 (h.filter (fun item => item ≠ t))
    omega
  · intro hnot hlen
    have hfe : h.filter (fun item => item ≠ t) = h := by
      rw [List.filter_eq_self]
      intro a ha
      simp only [ne_eq, decide_eq_true_eq]
      intro heq
      exact hnot (heq ▸ ha)
    rw [hsave, hfe, List.dropLast_eq_take, hlen]
    rfl

/-- Witness for `history_dedup_bound_clear` on a full store containing the
added text. -/
theorem history_dedup_bound_clear_witness :
    ("x" : String) ∉ ["0", "1", "2", "3", "4", "5", "6", "7", "8", "9"]
    ∧ (["0", "1", "2", "3", "4", "5", "6", "7", "8", "9"] : List String).length
        = MAX_HISTORY_ITEMS
    ∧ saveToHistory "x" ["0", "1", "2", "3", "4", "5", "6", "7", "8", "9"]
        = "x" :: (["0", "1", "2", "3", "4", "5", "6", "7", "8", "9"] : List String).dropLast
    ∧ (saveToHistory "b" ["a", "b", "c"]).count "b" = 1 :=
  ⟨by decide, by decide,
   (history_dedup_bound_clear "x" ["0", "1", "2", "3", "4", "5", "6", "7", "8", "9"]).2.2.2.1
     (by decide) (by decide),
   (history_dedup_bound_clear "b" ["a", "b", "c"]).2.1⟩

/-- C2: in the keystroke-injection fallback, when the snapshot taken before
the fallback's clipboard write has truthy text, the clipboard at the restore
point (after the settle delay, before `handleSubmit`'s final backup copy,
i.e. at the successful return of `sendToFocusedApp`) equals the snapshot's
text value — and differs from the submitted text whenever the two differ. -/
theorem fallback_restore_point (env : Env) (text orig : String) (c : ReadContent)
    (pe : JsError) (out : String)
    (hpaste : env.pasteErr = some pe)
    (hfc : env.fallbackCopyErr = none)
    (hks : env.keystrokeOutcome = ExecOutcome.completed out "")
    (hrc : env.restoreCopyErr = none)
    (ht : truthyText c = some orig) :
    (sendToFocusedApp env text { clip := c, trace := [] }).1.clip
        = { text := some orig, file := none }
    ∧ (sendToFocusedApp env text { clip := c, trace := [] }).2 = Except.ok ()
    ∧ (orig ≠ text →
        (sendToFocusedApp env text { clip := c, trace := [] }).1.clip
          ≠ { text := some text, file := none }) := by
  refine ⟨?_, ?_, ?_⟩ <;>
    simp [sendToFocusedApp, hpaste, hfc, hks, hrc, ht, doCopy, logE, execAppleScript]

/-- Witness for `fallback_restore_point` on a concrete fallback run. -/
theorem fallback_restore_point_witness :
    envFallbackOk.pasteErr = some (JsError.err "paste unsupported")
    ∧ truthyText { text := some "old", file := none } = some "old"
    ∧ (sendToFocusedApp envFallbackOk "hi" stOld).1.clip = { text := some "old", file := none } :=
  ⟨by decide, by decide,
   (fallback_restore_point envFallbackOk "hi" "old" { text := some "old", file := none }
      (JsError.err "paste unsupported") "Zed"
      (by decide) (by decide) (by decide) (by decide) (by decide)).1⟩

/-- C5: when the permission probe fails, no keystroke-injection automation
call is issued for the submission; the trimmed text is written to the
clipboard and the permission notice is shown. -/
theorem probe_denied_no_keystroke (env : Env) (v : Values) (c : ReadContent)
    (hne : jsTrim v.textarea ≠ "")
    (hprobe : execPasses probeScript env.probeOutcome = false)
    (hsc : env.submitCopyErr = none) :
    Event.exec keystrokeScript ∉ (handleSubmit env v { clip := c, trace := [] }).1.trace
    ∧ (handleSubmit env v { clip := c, trace := [] }).1.clip
        = { text := some (jsTrim v.textarea), file := none }
    ∧ Event.hud "Message copied to clipboard (AppleScript permissions required for auto-paste)"
        ∈ (handleSubmit env v { clip := c, trace := [] }).1.trace := by
  have hne2 : keystrokeScript ≠ probeScript := by decide
  refine ⟨?_, ?_, ?_⟩ <;>
    simp [handleSubmit, checkPermissions, hprobe, hsc, doCopy, logE, hne, hne2]

/-- Witness for `probe_denied_no_keystroke` on a probe-denied run. -/
theorem probe_denied_no_keystroke_witness :
    jsTrim "hi" ≠ ""
    ∧ execPasses probeScript envProbeFail.probeOutcome = false
    ∧ Event.exec keystrokeScript ∉ (handleSubmit envProbeFail { textarea := "hi" } stOld).1.trace :=
  ⟨by decide, by decide,
   (probe_denied_no_keystroke envProbeFail { textarea := "hi" }
      { text := some "old", file := none } (by decide) (by decide) (by decide)).1⟩

/-- C3: in `sendToFocusedApp`, every clipboard write is preceded by the
snapshot read: any `copy` event in the trace has a `read` event at a strictly
earlier position (the only operation before the snapshot is the direct-paste
attempt, which does not write the clipboard). -/
theorem snapshot_before_clipboard_mutation (env : Env) (text : String) (c : ReadContent) :
    ∀ (i : Nat) (s : String),
      ((sendToFocusedApp env text { clip := c, trace := [] }).1.trace)[i]?
          = some (Event.copy s) →
      ∃ (j : Nat) (cr : ReadContent), j < i ∧
        ((sendToFocusedApp env text { clip := c, trace := [] }).1.trace)[j]?
          = some (Event.read cr) := by
  have hchk : copyAfterRead
      (sendToFocusedApp env text { clip := c, trace := [] }).1.trace false = true := by
    cases hpe : env.pasteErr with
    | none => simp [sendToFocusedApp, hpe, copyAfterRead, logE]
    | some pe =>
      cases hfc : env.fallbackCopyErr with
      | some e =>
        cases ht : truthyText c <;>
          cases hrc : env.restoreCopyErr <;>
            simp [sendToFocusedApp, fallbackCatch, doCopy, logE, hpe, hfc, ht, hrc,
              copyAfterRead]
      | none =>
        cases hko : env.keystrokeOutcome with
        | spawnError ke =>
          cases ht : truthyText c <;>
            cases hrc : env.restoreCopyErr <;>
              simp [sendToFocusedApp, fallbackCatch, doCopy, logE, hpe, hfc, hko, ht, hrc,
                execAppleScript, copyAfterRead]
        | completed kout kerr =>
          by_cases hke : kerr = "" <;>
            cases ht : truthyText c <;>
              cases hrc : env.restoreCopyErr <;>
                simp [sendToFocusedApp, fallbackCatch, doCopy, logE, hpe, hfc, hko, hke, ht, hrc,
                  execAppleScript, copyAfterRead]
  intro i s hi
  rcases copyAfterRead_spec _ false hchk i s hi with hfalse | hj
  · exact absurd hfalse (by decide)
  · exact hj

/-- Witness for `snapshot_before_clipboard_mutation` at the fallback's
clipboard write. -/
theorem snapshot_before_clipboard_mutation_witness :
    ((sendToFocusedApp envFallbackOk "hi" stOld).1.trace)[2]? = some (Event.copy "hi")
    ∧ ∃ (j : Nat) (cr : ReadContent), j < 2 ∧
        ((sendToFocusedApp envFallbackOk "hi" stOld).1.trace)[j]? = some (Event.read cr) :=
  ⟨by decide,
   snapshot_before_clipboard_mutation envFallbackOk "hi" { text := some "old", file := none }
     2 "hi" (by decide)⟩

/-- C1: for every input with non-empty trimmed text, whenever the submission
completes successfully (a success HUD was shown — either strategy's), the
clipboard holds exactly the trimmed submitted text, for every combination of
injected failures and every initial clipboard. -/
theorem submit_success_clipboard_backup (env : Env) (v : Values) (c : ReadContent)
    (hne : jsTrim v.textarea ≠ "")
    (hs : Event.hud "Message sent successfully!"
            ∈ (handleSubmit env v { clip := c, trace := [] }).1.trace
        ∨ Event.hud "Message copied to clipboard (AppleScript permissions required for auto-paste)"
            ∈ (handleSubmit env v { clip := c, trace := [] }).1.trace) :
    (handleSubmit env v { clip := c, trace := [] }).1.clip
      = { text := some (jsTrim v.textarea), file := none } := by
  cases hpo : env.probeOutcome with
  | spawnError e0 =>
    cases hsc : env.submitCopyErr <;>
      simp [handleSubmit, checkPermissions, execPasses, execAppleScript, doCopy, logE,
        hne, hpo, hsc, sent_ne_catchMsg, clipNotice_ne_catchMsg] at hs ⊢
  | completed pout perr =>
    by_cases hperr : perr = ""
    · cases hpe : env.pasteErr with
      | none =>
        cases hsc : env.submitCopyErr <;>
          simp [handleSubmit, checkPermissions, execPasses, execAppleScript, sendToFocusedApp,
            doCopy, logE, hne, hpo, hperr, hpe, hsc,
            sent_ne_catchMsg, clipNotice_ne_catchMsg] at hs ⊢
      | some pe =>
        cases hfc : env.fallbackCopyErr with
        | some e1 =>
          cases ht : truthyText c <;> cases hrc : env.restoreCopyErr <;>
            simp [handleSubmit, checkPermissions, execPasses, execAppleScript, sendToFocusedApp,
              fallbackCatch, doCopy, logE, hne, hpo, hperr, hpe, hfc, ht, hrc,
              sent_ne_catchMsg, clipNotice_ne_catchMsg] at hs ⊢
        | none =>
          cases hko : env.keystrokeOutcome with
          | spawnError ke =>
            cases ht : truthyText c <;> cases hrc : env.restoreCopyErr <;>
              simp [handleSubmit, checkPermissions, execPasses, execAppleScript, sendToFocusedApp,
                fallbackCatch, doCopy, logE, hne, hpo, hperr, hpe, hfc, hko, ht, hrc,
                sent_ne_catchMsg, clipNotice_ne_catchMsg] at hs ⊢
          | completed kout kerr =>
            by_cases hke : kerr = ""
            · cases ht : truthyText c with
              | none =>
                cases hsc : env.submitCopyErr <;>
                  simp [handleSubmit, checkPermissions, execPasses, execAppleScript,
                    sendToFocusedApp, fallbackCatch, doCopy, logE, hne, hpo, hperr, hpe, hfc,
                    hko, hke, ht, hsc, sent_ne_catchMsg, clipNotice_ne_catchMsg] at hs ⊢
              | some orig =>
                cases hrc : env.restoreCopyErr with
                | some e2 =>
                  simp [handleSubmit, checkPermissions, execPasses, execAppleScript,
                    sendToFocusedApp, fallbackCatch, doCopy, logE, hne, hpo, hperr, hpe, hfc,
                    hko, hke, ht, hrc, sent_ne_catchMsg, clipNotice_ne_catchMsg] at hs ⊢
                | none =>
                  cases hsc : env.submitCopyErr <;>
                    simp [handleSubmit, checkPermissions, execPasses, execAppleScript,
                      sendToFocusedApp, fallbackCatch, doCopy, logE, hne, hpo, hperr, hpe, hfc,
                      hko, hke, ht, hrc, hsc, sent_ne_catchMsg, clipNotice_ne_catchMsg] at hs ⊢
            · cases ht : truthyText c <;> cases hrc : env.restoreCopyErr <;>
                simp [handleSubmit, checkPermissions, execPasses, execAppleScript,
                  sendToFocusedApp, fallbackCatch, doCopy, logE, hne, hpo, hperr, hpe, hfc,
                  hko, hke, ht, hrc, sent_ne_catchMsg, clipNotice_ne_catchMsg] at hs ⊢
    · cases hsc : env.submitCopyErr <;>
        simp [handleSubmit, checkPermissions, execPasses, execAppleScript, doCopy, logE,
          hne, hpo, hperr, hsc, sent_ne_catchMsg, clipNotice_ne_catchMsg] at hs ⊢

/-- Witness for `submit_success_clipboard_backup` on a successful
keystroke-fallback run. -/
theorem submit_success_clipboard_backup_witness :
    jsTrim " hi " ≠ ""
    ∧ Event.hud "Message sent successfully!"
        ∈ (handleSubmit envFallbackOk { textarea := " hi " } stOld).1.trace
    ∧ (handleSubmit envFallbackOk { textarea := " hi " } stOld).1.clip
        = { text := some (jsTrim " hi "), file := none } :=
  ⟨by decide, by decide,
   submit_success_clipboard_backup envFallbackOk { textarea := " hi " }
     { text := some "old", file := none } (by decide) (Or.inl (by decide))⟩

/-- C4: if any step of the keystroke-injection fallback fails (clipboard
write, keystroke script, or restore), the restore of a text-kind snapshot is
still attempted before the error is re-raised (a `copy` of the snapshot text
is in the failing `sendToFocusedApp`'s own trace), and the error is then
caught by `handleSubmit`, which returns normally and shows a user-visible
notice. -/
theorem fallback_error_restore_and_notice (env : Env) (v : Values) (c : ReadContent)
    (pe : JsError) (s : String)
    (hne : jsTrim v.textarea ≠ "")
    (hprobe : execPasses probeScript env.probeOutcome = true)
    (hpaste : env.pasteErr = some pe)
    (hfail : env.fallbackCopyErr.isSome = true
           ∨ execPasses keystrokeScript env.keystrokeOutcome = false
           ∨ env.restoreCopyErr.isSome = true)
    (ht : truthyText c = some s) :
    (∃ e, (sendToFocusedApp env (jsTrim v.textarea) { clip := c, trace := [] }).2
        = Except.error e)
    ∧ Event.copy s ∈ (sendToFocusedApp env (jsTrim v.textarea) { clip := c, trace := [] }).1.trace
    ∧ (handleSubmit env v { clip := c, trace := [] }).2 = Except.ok ()
    ∧ hasHud (handleSubmit env v { clip := c, trace := [] }).1.trace = true := by
  have hpOk : execPasses probeScript env.probeOutcome = true := hprobe
  cases hfc : env.fallbackCopyErr with
  | some e1 =>
    cases hrc : env.restoreCopyErr <;>
      refine ⟨?_, ?_, ?_, ?_⟩ <;>
        simp [handleSubmit, checkPermissions, sendToFocusedApp, fallbackCatch, doCopy, logE,
          hasHud, hne, hpOk, hpaste, hfc, hrc, ht]
  | none =>
    cases hko : env.keystrokeOutcome with
    | spawnError ke =>
      cases hrc : env.restoreCopyErr <;>
        refine ⟨?_, ?_, ?_, ?_⟩ <;>
          simp [handleSubmit, checkPermissions, sendToFocusedApp, fallbackCatch, doCopy, logE,
            hasHud, execAppleScript, hne, hpOk, hpaste, hfc, hko, hrc, ht]
    | completed kout kerr =>
      by_cases hke : kerr = ""
      · cases hrc : env.restoreCopyErr with
        | none =>
          exfalso
          simp [execPasses, execAppleScript, hfc, hko, hke, hrc] at hfail
        | some e2 =>
          refine ⟨?_, ?_, ?_, ?_⟩ <;>
            simp [handleSubmit, checkPermissions, sendToFocusedApp, fallbackCatch, doCopy, logE,
              hasHud, execAppleScript, hne, hpOk, hpaste, hfc, hko, hke, hrc, ht]
      · cases hrc : env.restoreCopyErr <;>
          refine ⟨?_, ?_, ?_, ?_⟩ <;>
            simp [handleSubmit, checkPermissions, sendToFocusedApp, fallbackCatch, doCopy, logE,
              hasHud, execAppleScript, hne, hpOk, hpaste, hfc, hko, hke, hrc, ht]

/-- Witness for `fallback_error_restore_and_notice` on a run whose keystroke
script fails. -/
theorem fallback_error_restore_and_notice_witness :
    jsTrim "hi" ≠ ""
    ∧ execPasses keystrokeScript envKsFail.keystrokeOutcome = false
    ∧ truthyText { text := some "old", file := none } = some "old"
    ∧ Event.copy "old" ∈ (sendToFocusedApp envKsFail (jsTrim "hi") stOld).1.trace
    ∧ (handleSubmit envKsFail { textarea := "hi" } stOld).2 = Except.ok () :=
  ⟨by decide, by decide, by decide,
   (fallback_error_restore_and_notice envKsFail { textarea := "hi" }
      { text := some "old", file := none } (JsError.err "paste unsupported") "old"
      (by decide) (by decide) (by decide) (Or.inr (Or.inl (by decide))) (by decide)).2.1,
   (fallback_error_restore_and_notice envKsFail { textarea := "hi" }
      { text := some "old", file := none } (JsError.err "paste unsupported") "old"
      (by decide) (by decide) (by decide) (Or.inr (Or.inl (by decide))) (by decide)).2.2.1⟩

/-- C10 counterexample: when the pre-fallback snapshot's text equals the
submitted text, a failed keystroke fallback (snapshot truthy, restore copy
succeeding) leaves the submitted text itself on the clipboard, so the final
clipboard content of the failed submission IS the submitted text even though
the snapshot had text content — refuting the claim's "not the submitted
text" / "only when the snapshot had no text content" clauses. -/
theorem fallback_failure_clipboard_counterexample :
    truthyText { text := some "hello", file := none } = some "hello"
    ∧ (∃ e, (sendToFocusedApp envKsFail "hello" stSame).2 = Except.error e)
    ∧ envKsFail.restoreCopyErr = none
    ∧ (handleSubmit envKsFail { textarea := "hello" } stSame).1.clip
        = { text := some "hello", file := none }
    ∧ Event.hud "AppleScript failed. Message saved to clipboard instead."
        ∈ (handleSubmit envKsFail { textarea := "hello" } stSame).1.trace :=
  ⟨by decide,
   ⟨JsError.err
      "Failed to execute AppleScript: Error: AppleScript error: not allowed to send keystrokes",
    rfl⟩,
   by decide, by decide, by decide⟩

/-- C10 amended: when the keystroke fallback fails, if the snapshot had
truthy text, the restore copy succeeds and the snapshot text differs from
the submitted text, then the failed submission's final clipboard is the
restored snapshot text and not the submitted text; if the snapshot had no
truthy text and the fallback's clipboard write succeeded, the submitted text
remains on the clipboard. -/
theorem fallback_failure_clipboard_amended (env : Env) (v : Values) (c : ReadContent)
    (pe : JsError) (s : String)
    (hne : jsTrim v.textarea ≠ "")
    (hprobe : execPasses probeScript env.probeOutcome = true)
    (hpaste : env.pasteErr = some pe)
    (hsendfail : ∃ e, (sendToFocusedApp env (jsTrim v.textarea) { clip := c, trace := [] }).2
        = Except.error e) :
    (truthyText c = some s → env.restoreCopyErr = none → s ≠ jsTrim v.textarea →
        (handleSubmit env v { clip := c, trace := [] }).1.clip
            = { text := some s, file := none }
        ∧ (handleSubmit env v { clip := c, trace := [] }).1.clip
            ≠ { text := some (jsTrim v.textarea), file := none })
    ∧ (truthyText c = none → env.fallbackCopyErr = none →
        (handleSubmit env v { clip := c, trace := [] }).1.clip
          = { text := some (jsTrim v.textarea), file := none }) := by
  constructor
  · intro ht hrc hne2
    cases hfc : env.fallbackCopyErr with
    | some e1 =>
      constructor <;>
        simp [handleSubmit, checkPermissions, sendToFocusedApp, fallbackCatch, doCopy, logE,
          hne, hprobe, hpaste, hfc, hrc, ht, hne2]
    | none =>
      cases hko : env.keystrokeOutcome with
      | spawnError ke =>
        constructor <;>
          simp [handleSubmit, checkPermissions, sendToFocusedApp, fallbackCatch, doCopy, logE,
            execAppleScript, hne, hprobe, hpaste, hfc, hko, hrc, ht, hne2]
      | completed kout kerr =>
        by_cases hke : kerr = ""
        · exfalso
          simp [sendToFocusedApp, fallbackCatch, doCopy, logE, execAppleScript,
            hpaste, hfc, hko, hke, hrc, ht] at hsendfail
        · constructor <;>
            simp [handleSubmit, checkPermissions, sendToFocusedApp, fallbackCatch, doCopy, logE,
              execAppleScript, hne, hprobe, hpaste, hfc, hko, hke, hrc, ht, hne2]
  · intro ht hfc
    cases hko : env.keystrokeOutcome with
    | spawnError ke =>
      simp [handleSubmit, checkPermissions, sendToFocusedApp, fallbackCatch, doCopy, logE,
        execAppleScript, hne, hprobe, hpaste, hfc, hko, ht]
    | completed kout kerr =>
      by_cases hke : kerr = ""
      · exfalso
        simp [sendToFocusedApp, fallbackCatch, doCopy, logE, execAppleScript,
          hpaste, hfc, hko, hke, ht] at hsendfail
      · simp [handleSubmit, checkPermissions, sendToFocusedApp, fallbackCatch, doCopy, logE,
          execAppleScript, hne, hprobe, hpaste, hfc, hko, hke, ht]

/-- Witness for `fallback_failure_clipboard_amended` on a failed keystroke
fallback with a distinct snapshot text. -/
theorem fallback_failure_clipboard_amended_witness :
    jsTrim "hi" ≠ ""
    ∧ (∃ e, (sendToFocusedApp envKsFail (jsTrim "hi") stOld).2 = Except.error e)
    ∧ (handleSubmit envKsFail { textarea := "hi" } stOld).1.clip
        = { text := some "old", file := none } :=
  ⟨by decide,
   ⟨JsError.err
      "Failed to execute AppleScript: Error: AppleScript error: not allowed to send keystrokes",
    rfl⟩,
   ((fallback_failure_clipboard_amended envKsFail { textarea := "hi" }
      { text := some "old", file := none } (JsError.err "paste unsupported") "old"
      (by decide) (by decide) (by decide)
      ⟨JsError.err
         "Failed to execute AppleScript: Error: AppleScript error: not allowed to send keystrokes",
       rfl⟩).1 (by decide) (by decide) (by decide)).1⟩

end Denshobato
